import Mathlib

/-!
Verification of the dropbox-ds folder reconciliation engine and file
handles, as a shallow embedding of the Python sources.

Sources embedded here:
- src/dropbox_ds/folder.py        (engine A: single-call fetch, shared reconciliation)
- src/dropbox_ds/dropboxfolder.py (engine B: paginating fetch, same reconciliation)
- src/dropboxutils/folder.py      (legacy engine U: no scope filter, union-only)
- src/dropbox_ds/file.py          (file handles: exists, upload, move, copy, delete)

Modelling conventions:
- Python strings are Lean String; bytes payloads are List Nat; datetimes are
  records of Nat fields (the spec needs only the formatted timestamp).
- A Python `set` of file handles hashes and compares by the path field alone
  (Base implements eq and hash over path).  We model such a set as a
  duplicate-path-free list built by insertion; inserting a handle whose path
  is already present keeps the element that is already in the set, exactly as
  CPython set insertion and set.union do.  Iteration order of a CPython set
  is abstracted as insertion order; no claim below depends on list order.
- Fallible storage-client calls return Except; a Python method that can raise
  is embedded as a function returning the final object state together with an
  optional exception value (the state component is the receiver state at the
  moment of return or raise, reflecting field-assignment order).
-/

namespace DropboxDS

/-! ### posixpath helpers

Faithful embeddings of the CPython posixpath functions used by the sources,
for the one-argument forms that appear there. -/

/-- posixpath.basename: everything after the last slash. -/
def posixBasename (p : String) : String :=
  String.mk ((p.data.reverse.takeWhile (fun c => c ≠ '/')).reverse)

/-- posixpath.dirname: everything before the last slash, with trailing
slashes stripped unless the head consists only of slashes. -/
def posixDirname (p : String) : String :=
  let cs := p.data
  let head := cs.take (cs.length - (cs.reverse.takeWhile (fun c => c ≠ '/')).length)
  if head ≠ [] ∧ head.any (fun c => c ≠ '/') then
    String.mk ((head.reverse.dropWhile (fun c => c = '/')).reverse)
  else
    String.mk head

/-- posixpath.join for two components. -/
def posixJoin (a b : String) : String :=
  if b.startsWith "/" then b
  else if a = "" ∨ a.endsWith "/" then a ++ b
  else a ++ "/" ++ b

/-! ### Storage records and file handles -/

/-- dropbox.files.FileMetadata, restricted to the fields the sources read. -/
structure FileMeta where
  pathLower : String
  clientModified : Nat
  contentHash : String
deriving DecidableEq

/-- One listing-page entry: FileMetadata, DeletedMetadata or FolderMetadata. -/
inductive Entry
  | file (m : FileMeta)
  | deleted (pathLower : String)
  | folder (pathLower : String)
deriving DecidableEq

/-- The state of a dropbox_ds/file.py Base instance: path plus the lazily
cached metadata fields. -/
structure DbxFile where
  path : String
  lastModified : Option Nat
  contentHash : Option String
deriving DecidableEq

/-- Base eq from file.py line 85: equality is by path alone. -/
def fileEq (a b : DbxFile) : Bool :=
  a.path == b.path

/-- make_dropbox_file on a FileMetadata record (file.py lines 326-331): the
handle takes path_lower, client_modified and content_hash from the record.
The choice among the Excel/Csv/Text subclasses affects only download
behaviour, which no claim here touches, so it is not modelled. -/
def make_dropbox_file (m : FileMeta) : DbxFile :=
  ⟨m.pathLower, some m.clientModified, some m.contentHash⟩

/-! ### Python sets of handles, keyed by path -/

/-- Insert into a CPython set of Base handles: a no-op when a handle with the
same path is already present (set membership uses Base eq, i.e. path). -/
def setInsert (s : List DbxFile) (f : DbxFile) : List DbxFile :=
  if s.any (fun g => g.path == f.path) then s else s ++ [f]

/-- set(l): build a set from a list, first occurrence of each path wins. -/
def setOf (l : List DbxFile) : List DbxFile :=
  l.foldl setInsert []

/-- set(old).union(new): elements of new whose path is already present are
not added, so the handle already in the set wins on a path collision. -/
def setUnion (old new : List DbxFile) : List DbxFile :=
  new.foldl setInsert (setOf old)

/-- The path multiset of a handle list. -/
def paths (l : List DbxFile) : List String :=
  l.map (fun f => f.path)

/-! ### Engine A: dropbox_ds/folder.py -/

/-- DropboxFolder state: the tracked directory, the cursor (empty string
means never listed) and the file list. -/
structure Folder where
  folder : String
  cursor : String
  flist : List DbxFile
deriving DecidableEq

/-- The FileMetadata records of a batch (folder.py line 100). -/
def filesOf (cs : List Entry) : List FileMeta :=
  cs.filterMap fun e => match e with | .file m => some m | _ => none

/-- The paths of the DeletedMetadata records of a batch (folder.py line 101). -/
def deletedPathsOf (cs : List Entry) : List String :=
  cs.filterMap fun e => match e with | .deleted p => some p | _ => none

/-- DropboxFolder private get files (folder.py lines 98-104): keep surviving
old handles (not deleted, parent still the folder), build handles for
in-scope file records, and take the set union. -/
def _get_files (s : Folder) (folder_contents : List Entry) : List DbxFile :=
  let files := filesOf folder_contents
  let deleted_paths := deletedPathsOf folder_contents
  let file_changes := (files.filter (fun m => s.folder == posixDirname m.pathLower)).map make_dropbox_file
  let files_left := s.flist.filter (fun f => !(deleted_paths.contains f.path) && (posixDirname f.path == s.folder))
  setUnion files_left file_changes

/-- The successful-update step shared by engines A and B: reconcile a fetched
batch and assign the new file list and cursor (folder.py lines 70-73). -/
def applyBatch (s : Folder) (cursor : String) (changes : List Entry) : Folder :=
  { s with flist := _get_files s changes, cursor := cursor }

/-- States reachable from a fresh DropboxFolder by successful updates with
arbitrary fetched batches (a failed update leaves the state untouched). -/
inductive Reachable : Folder → Prop
  | init (folder : String) : Reachable ⟨folder, "", []⟩
  | step (s : Folder) (c : String) (es : List Entry) :
      Reachable s → Reachable (applyBatch s c es)

/-! ### Storage client and engine A update -/

/-- An opaque storage-client failure. -/
inductive ClientErr
  | err (msg : String)
deriving DecidableEq

/-- One page returned by files list folder or files list folder continue. -/
structure Page where
  entries : List Entry
  cursor : String
  hasMore : Bool
deriving DecidableEq

/-- The listing operations of the storage client, as injected behaviour. -/
structure FolderClient where
  listFolder : String → Except ClientErr Page
  listFolderContinue : String → Except ClientErr Page

/-- DropboxFolderError wrapping a client failure. -/
inductive FolderError
  | wrap (cause : ClientErr)
deriving DecidableEq

/-- Engine A fetch (folder.py lines 84-96): a single list or continue call;
the has more flag of the result is ignored. -/
def fetchA (client : FolderClient) (s : Folder) : Except FolderError (String × List Entry) :=
  if s.cursor == "" then
    match client.listFolder s.folder with
    | .ok r => .ok (r.cursor, r.entries)
    | .error e => .error (.wrap e)
  else
    match client.listFolderContinue s.cursor with
    | .ok r => .ok (r.cursor, r.entries)
    | .error e => .error (.wrap e)

/-- Engine A update (folder.py lines 65-73).  The Python method computes the
fetch and the reconciliation first and assigns the flist and cursor fields
only after both succeed, so on an exception the state is the untouched
receiver. -/
def updateA (client : FolderClient) (s : Folder) : Folder × Option FolderError :=
  match fetchA client s with
  | .error e => (s, some e)
  | .ok (cursor, changes) => (applyBatch s cursor changes, none)

/-! ### Engine B: dropbox_ds/dropboxfolder.py

Same reconciliation as engine A (dropboxfolder.py lines 148-162 are the same
computation as folder.py lines 98-104, over a field named path instead of
folder), but the fetchers loop on the has more flag (lines 100-146),
appending every page of entries before reconciling. -/

/-- The while loop of dropboxfolder.py lines 114-120 and 138-144: keep
calling continue with the latest cursor while has more is set, accumulating
entries.  The loop has no bound in the source; fuel counts the continue
calls still allowed, and none models a run needing more than the fuel. -/
def pageLoop (client : FolderClient) : Nat → Page → List Entry →
    Option (Except FolderError (String × List Entry))
  | fuel, result, acc =>
    if result.hasMore then
      match fuel with
      | 0 => none
      | fuel' + 1 =>
        match client.listFolderContinue result.cursor with
        | .error e => some (.error (FolderError.wrap e))
        | .ok r2 => pageLoop client fuel' r2 (acc ++ r2.entries)
    else
      some (.ok (result.cursor, acc))

/-- Engine B full listing (dropboxfolder.py lines 124-146). -/
def getChangesFromPathB (client : FolderClient) (fuel : Nat) (s : Folder) :
    Option (Except FolderError (String × List Entry)) :=
  match client.listFolder s.folder with
  | .error e => some (.error (FolderError.wrap e))
  | .ok r => pageLoop client fuel r r.entries

/-- Engine B delta listing (dropboxfolder.py lines 100-122). -/
def getChangesFromCursorB (client : FolderClient) (fuel : Nat) (s : Folder) :
    Option (Except FolderError (String × List Entry)) :=
  match client.listFolderContinue s.cursor with
  | .error e => some (.error (FolderError.wrap e))
  | .ok r => pageLoop client fuel r r.entries

/-- Engine B update (dropboxfolder.py lines 80-89): fetch all pages, then
reconcile once over the concatenation and assign flist and cursor. -/
def updateB (client : FolderClient) (fuel : Nat) (s : Folder) :
    Option (Folder × Option FolderError) :=
  match (if s.cursor == "" then getChangesFromPathB client fuel s
         else getChangesFromCursorB client fuel s) with
  | none => none
  | some (.error e) => some (s, some e)
  | some (.ok (cursor, changes)) => some (applyBatch s cursor changes, none)

/-! ### Engine U: dropboxutils/folder.py

The legacy engine: its get files (lines 85-86) maps every FileMetadata
record to a handle with no parent-directory filter, and its update
(lines 52-59) takes a plain union with the previous list, never removing
deleted entries. -/

/-- dropboxutils get files (folder.py lines 85-86): every FileMetadata entry
becomes a handle; deleted and folder records are dropped; no scope filter. -/
def uGetFiles (files : List Entry) : List DbxFile :=
  files.filterMap fun e => match e with | .file m => some (make_dropbox_file m) | _ => none

/-- dropboxutils DropboxFolder state: cursor and flist start as None. -/
structure UFolder where
  folder : String
  cursor : Option String
  flist : Option (List DbxFile)
deriving DecidableEq

/-- dropboxutils update (folder.py lines 52-59) on a fetched batch: on the
first call both fields are assigned from the full listing; afterwards the
new handles are unioned into the old list.  Returns none in the mixed
state in which exactly one field is None, where the Python code would
fail on set(None). -/
def uUpdate (s : UFolder) (cursor : String) (entries : List Entry) : Option UFolder :=
  match s.cursor, s.flist with
  | none, none => some ⟨s.folder, some cursor, some (uGetFiles entries)⟩
  | _, some l => some ⟨s.folder, some cursor, some (setUnion l (uGetFiles entries))⟩
  | _, none => none

/-! ### File handles: dropbox_ds/file.py -/

/-- TIME_FORMAT (file.py line 26). -/
def TIME_FORMAT : String := "%Y%m%d_%H:%M"

/-- A UTC wall-clock instant as strftime reads it. -/
structure DateTimeUTC where
  year : Nat
  month : Nat
  day : Nat
  hour : Nat
  minute : Nat
deriving DecidableEq

/-- Left-pad a decimal with zeros to the given width. -/
def padZ (w : Nat) (n : Nat) : String :=
  let s := toString n
  String.mk (List.replicate (w - s.length) '0') ++ s

/-- datetime.strftime with the fixed TIME_FORMAT pattern, for years
1000-9999 (percent Y pads to four digits, the others to two). -/
def strftimeTF (t : DateTimeUTC) : String :=
  padZ 4 t.year ++ padZ 2 t.month ++ padZ 2 t.day ++ "_" ++ padZ 2 t.hour ++ ":" ++ padZ 2 t.minute

/-- A Python exception value as the file methods inspect it.  The first
constructor stands for a dropbox ApiError whose error field is a
GetMetadataError with a LookupError path, that is the exact triple tested
in file.py lines 138-140; the second for any other ApiError; the third for
a non-ApiError exception; the last for the DropboxFileError wrapper. -/
inductive PyExc
  | apiGetMetadataNotFound
  | apiOtherError (code : Nat)
  | transportError (code : Nat)
  | dropboxFileError (cause : PyExc)
deriving DecidableEq

/-- The isinstance triple of file.py lines 138-140, as a predicate on the
caught exception value. -/
def isFileNotFound : PyExc → Bool
  | .apiGetMetadataNotFound => true
  | _ => false

/-- The per-file storage-client operations, as injected behaviour.  The
client raises raw exceptions (never the DropboxFileError wrapper). -/
structure FileClient where
  getMetadata : String → Except PyExc FileMeta
  filesMove : String → String → Except PyExc Unit
  filesCopy : String → String → Except PyExc Unit
  filesDelete : String → Except PyExc Unit
  filesUpload : List Nat → String → Except PyExc Unit

/-- Base update metadata (file.py lines 210-225): optionally set the path,
then resolve metadata and refresh path, last modified and content hash from
the response; any client failure is wrapped in DropboxFileError and raised,
leaving the fields assigned so far in place. -/
def update_metadata (client : FileClient) (st : DbxFile) (path : Option String) :
    DbxFile × Option PyExc :=
  let st1 := match path with
    | some p => { st with path := p }
    | none => st
  match client.getMetadata st1.path with
  | .ok m => (⟨m.pathLower, some m.clientModified, some m.contentHash⟩, none)
  | .error e => (st1, some (.dropboxFileError e))

/-- Base exists (file.py lines 127-143): call update metadata; on success
return true; on an exception, return false when the caught value is the
ApiError not-found triple, otherwise raise DropboxFileError around it.
Note that update metadata has already wrapped every client failure in
DropboxFileError, so the caught value is never a bare ApiError. -/
def exists' (client : FileClient) (st : DbxFile) : DbxFile × Except PyExc Bool :=
  match update_metadata client st none with
  | (st2, none) => (st2, .ok true)
  | (st2, some e) =>
    if isFileNotFound e then (st2, .ok false)
    else (st2, .error (.dropboxFileError e))

/-- Base move (file.py lines 176-187): move on the client, then refresh
metadata at the destination.  The except branch evaluates
DropboxFileError(err) without a raise statement, so every failure is
swallowed and the method returns normally. -/
def move (client : FileClient) (st : DbxFile) (dest : String) : DbxFile × Option PyExc :=
  match client.filesMove st.path dest with
  | .error _err => (st, none)
  | .ok _ =>
    match update_metadata client st (some dest) with
    | (st2, none) => (st2, none)
    | (st2, some _err) => (st2, none)

/-- Base copy (file.py lines 189-199): copy on the client; the except branch
evaluates DropboxFileError(err) without a raise statement, so every failure
is swallowed; the receiver is never mutated. -/
def copy (client : FileClient) (st : DbxFile) (dest : String) : DbxFile × Option PyExc :=
  match client.filesCopy st.path dest with
  | .error _err => (st, none)
  | .ok _ => (st, none)

/-- Base delete (file.py lines 201-208): delete on the client; the except
branch evaluates DropboxFileError(err) without a raise statement, so every
failure is swallowed. -/
def delete (client : FileClient) (st : DbxFile) : DbxFile × Option PyExc :=
  match client.filesDelete st.path with
  | .error _err => (st, none)
  | .ok _ => (st, none)

/-- Base upload (file.py lines 145-161): when the timestamp flag is set the
path field is rewritten, before the client call, to
dirname/<strftime(TIME_FORMAT)><basename>; then the data is uploaded in
overwrite mode at the rewritten path and on success the metadata cache is
refreshed from the metadata response; failures of either call are wrapped
in DropboxFileError and raised.  utcnow() is passed in as now. -/
def upload (client : FileClient) (st : DbxFile) (data : List Nat) (timestamp : Bool)
    (now : DateTimeUTC) : DbxFile × Option PyExc :=
  let st1 :=
    if timestamp then
      { st with path := posixJoin (posixDirname st.path) (strftimeTF now ++ posixBasename st.path) }
    else st
  match client.filesUpload data st1.path with
  | .error e => (st1, some (.dropboxFileError e))
  | .ok _ =>
    match update_metadata client st1 none with
    | (st2, none) => (st2, none)
    | (st2, some e) => (st2, some (.dropboxFileError e))

/-- Whether an entry is a FolderMetadata record. -/
def isFolderEntry : Entry → Bool
  | .folder _ => true
  | _ => false

/-! ### Concrete fixtures for counterexamples and witnesses -/

/-- A file client whose every operation fails with a transport error. -/
def failingFileClient : FileClient :=
  { getMetadata := fun _ => .error (.transportError 7)
    filesMove := fun _ _ => .error (.transportError 7)
    filesCopy := fun _ _ => .error (.transportError 7)
    filesDelete := fun _ => .error (.transportError 7)
    filesUpload := fun _ _ => .error (.transportError 7) }

/-- A file client whose metadata resolution fails with the exact ApiError
triple that file.py lines 138-140 try to recognise as file-not-found. -/
def notFoundFileClient : FileClient :=
  { getMetadata := fun _ => .error .apiGetMetadataNotFound
    filesMove := fun _ _ => .error .apiGetMetadataNotFound
    filesCopy := fun _ _ => .error .apiGetMetadataNotFound
    filesDelete := fun _ => .error .apiGetMetadataNotFound
    filesUpload := fun _ _ => .error .apiGetMetadataNotFound }

/-- A folder client whose every listing call fails. -/
def failingFolderClient : FolderClient :=
  { listFolder := fun _ => .error (.err "boom")
    listFolderContinue := fun _ => .error (.err "boom") }

/-- A client serving a full listing split over three pages: the first two
pages carry the has more flag. -/
def threePageClient (path : String) (e1 e2 e3 : List Entry) (c1 c2 c3 : String) :
    FolderClient :=
  { listFolder := fun q => if q == path then .ok ⟨e1, c1, true⟩ else .error (.err "not found")
    listFolderContinue := fun cur =>
      if cur == c1 then .ok ⟨e2, c2, true⟩
      else if cur == c2 then .ok ⟨e3, c3, false⟩
      else .error (.err "reset") }

/-- A client serving the same listing as a single page. -/
def onePageClient (path : String) (es : List Entry) (c : String) : FolderClient :=
  { listFolder := fun q => if q == path then .ok ⟨es, c, false⟩ else .error (.err "not found")
    listFolderContinue := fun _ => .error (.err "reset") }

/-- A handle with no cached metadata, as built from a bare path string. -/
def exFile : DbxFile := ⟨"/d/a.txt", none, none⟩

/-- A tracked folder holding one stale handle for /d/a.txt. -/
def exFolderOne : Folder := ⟨"/d", "c0", [⟨"/d/a.txt", some 1, some "h1"⟩]⟩

/-- A reachable tracked state over /d with one file, built by one update. -/
def exReached : Folder := applyBatch ⟨"/d", "", []⟩ "c1" [.file ⟨"/d/a.txt", 1, "h1"⟩]

/-- A tracked folder holding three direct children of /d. -/
def exThree : Folder :=
  ⟨"/d", "ct", [⟨"/d/a.txt", some 1, some "ha"⟩, ⟨"/d/b.txt", some 1, some "hb"⟩,
    ⟨"/d/c.txt", some 1, some "hc"⟩]⟩

/-- A file client whose uploads succeed and whose metadata endpoint serves a
fixed record. -/
def uploadOkClient : FileClient :=
  { getMetadata := fun _ => .ok ⟨"/d/20200307_15:04a.txt", 9, "hw"⟩
    filesMove := fun _ _ => .error (.transportError 1)
    filesCopy := fun _ _ => .error (.transportError 1)
    filesDelete := fun _ => .error (.transportError 1)
    filesUpload := fun _ _ => .ok () }

/-- A client whose delta at cursor ct reports exactly one deletion. -/
def deleteBClient : FolderClient :=
  { listFolder := fun _ => .error (.err "unexpected")
    listFolderContinue := fun cur =>
      if cur == "ct" then .ok ⟨[.deleted "/d/b.txt"], "cz", false⟩
      else .error (.err "unexpected") }

/-! ### Lemmas about the path-keyed set -/

theorem any_path_iff (l : List DbxFile) (p : String) :
    (l.any (fun g => g.path == p) = true) ↔ p ∈ paths l := by
  simp [paths, List.any_eq_true]

theorem setInsert_of_mem {acc : List DbxFile} {f : DbxFile} (h : f.path ∈ paths acc) :
    setInsert acc f = acc := by
  unfold setInsert
  rw [if_pos ((any_path_iff acc f.path).2 h)]

theorem setInsert_of_not_mem {acc : List DbxFile} {f : DbxFile} (h : f.path ∉ paths acc) :
    setInsert acc f = acc ++ [f] := by
  unfold setInsert
  rw [if_neg]
  intro hc
  exact h ((any_path_iff acc f.path).1 hc)

theorem paths_append (a b : List DbxFile) : paths (a ++ b) = paths a ++ paths b := by
  simp [paths]

theorem paths_cons (f : DbxFile) (l : List DbxFile) :
    paths (f :: l) = f.path :: paths l := rfl

theorem mem_paths_foldl (l : List DbxFile) :
    ∀ (acc : List DbxFile) (p : String),
      p ∈ paths (l.foldl setInsert acc) ↔ p ∈ paths acc ∨ p ∈ paths l := by
  induction l with
  | nil => intro acc p; simp [paths]
  | cons f l ih =>
    intro acc p
    rw [List.foldl_cons, ih]
    by_cases h : f.path ∈ paths acc
    · rw [setInsert_of_mem h, paths_cons]
      constructor
      · rintro (h1 | h1)
        · exact Or.inl h1
        · exact Or.inr (List.mem_cons_of_mem _ h1)
      · rintro (h1 | h1)
        · exact Or.inl h1
        · rcases List.mem_cons.1 h1 with h2 | h2
          · exact Or.inl (h2 ▸ h)
          · exact Or.inr h2
    · rw [setInsert_of_not_mem h, paths_append, paths_cons]
      constructor
      · rintro (h1 | h1)
        · rcases List.mem_append.1 h1 with h2 | h2
          · exact Or.inl h2
          · exact Or.inr (List.mem_cons.2 (Or.inl (by simpa [paths] using h2)))
        · exact Or.inr (List.mem_cons_of_mem _ h1)
      · rintro (h1 | h1)
        · exact Or.inl (List.mem_append.2 (Or.inl h1))
        · rcases List.mem_cons.1 h1 with h2 | h2
          · exact Or.inl (List.mem_append.2 (Or.inr (by simp [paths, h2])))
          · exact Or.inr h2

theorem nodup_paths_foldl (l : List DbxFile) :
    ∀ acc : List DbxFile, (paths acc).Nodup → (paths (l.foldl setInsert acc)).Nodup := by
  induction l with
  | nil => intro acc h; simpa using h
  | cons f l ih =>
    intro acc h
    rw [List.foldl_cons]
    by_cases hm : f.path ∈ paths acc
    · rw [setInsert_of_mem hm]; exact ih acc h
    · rw [setInsert_of_not_mem hm]
      refine ih (acc ++ [f]) ?_
      rw [paths_append]
      refine List.nodup_append.2 ⟨h, by simp [paths], ?_⟩
      intro a ha hb
      have hb' : a = f.path := by simpa [paths] using hb
      exact hm (hb' ▸ ha)

theorem find?_append_left {α : Type} (l₁ l₂ : List α) (q : α → Bool) (a : α)
    (h : l₁.find? q = some a) : (l₁ ++ l₂).find? q = some a := by
  induction l₁ with
  | nil => simp [List.find?] at h
  | cons x l ih =>
    rw [List.cons_append]
    cases hx : q x with
    | true =>
      rw [List.find?_cons_of_pos _ hx] at h ⊢
      exact h
    | false =>
      have hx' : ¬ q x = true := by simp [hx]
      rw [List.find?_cons_of_neg _ hx'] at h ⊢
      exact ih h

theorem foldl_setInsert_eq_append (l : List DbxFile) :
    ∀ acc : List DbxFile, (paths (acc ++ l)).Nodup → l.foldl setInsert acc = acc ++ l := by
  induction l with
  | nil => intro acc _; simp
  | cons f l ih =>
    intro acc h
    have hsplit : paths (acc ++ f :: l) = paths acc ++ f.path :: paths l := by
      rw [paths_append, paths_cons]
    have hm : f.path ∉ paths acc := by
      rw [hsplit] at h
      rcases List.nodup_append.1 h with ⟨_, _, hdisj⟩
      intro hc
      exact hdisj hc (by simp)
    rw [List.foldl_cons, setInsert_of_not_mem hm]
    have hassoc : acc ++ [f] ++ l = acc ++ f :: l := by simp
    rw [ih (acc ++ [f]) (by rw [hassoc]; exact h), hassoc]

theorem setOf_eq_self {l : List DbxFile} (h : (paths l).Nodup) : setOf l = l := by
  unfold setOf
  simpa using foldl_setInsert_eq_append l [] (by simpa using h)

/-! ### Lemmas about the reconciliation -/

theorem mem_paths_setUnion (old new : List DbxFile) (p : String) :
    p ∈ paths (setUnion old new) ↔ p ∈ paths old ∨ p ∈ paths new := by
  unfold setUnion setOf
  rw [mem_paths_foldl, mem_paths_foldl]
  simp [paths]

/-- Every handle in the reconciled list has the tracked folder as its parent
directory: both the surviving-old filter and the file-changes filter test
exactly this. -/
theorem dirname_of_mem_paths_getFiles (s : Folder) (es : List Entry) (p : String)
    (h : p ∈ paths (_get_files s es)) : posixDirname p = s.folder := by
  unfold _get_files at h
  rcases (mem_paths_setUnion _ _ p).1 h with h1 | h1
  · simp only [paths, List.mem_map] at h1
    rcases h1 with ⟨f, hf, hp⟩
    rcases List.mem_filter.1 hf with ⟨_, hcond⟩
    rw [Bool.and_eq_true] at hcond
    rcases hcond with ⟨_, hdir⟩
    rw [← hp]
    exact eq_of_beq hdir
  · simp only [paths, List.mem_map] at h1
    rcases h1 with ⟨f, ⟨m, hm, hfm⟩, hp⟩
    rcases List.mem_filter.1 hm with ⟨_, hcond⟩
    have hdir : s.folder = posixDirname m.pathLower := eq_of_beq hcond
    rw [← hp, ← hfm]
    exact hdir.symm

/-- The reconciled list never holds two handles with the same path. -/
theorem nodup_paths_getFiles (s : Folder) (es : List Entry) :
    (paths (_get_files s es)).Nodup := by
  unfold _get_files setUnion setOf
  exact nodup_paths_foldl _ _ (nodup_paths_foldl _ [] (by simp [paths]))

/-- In every reachable folder state, all snapshot members are direct children
of the tracked folder. -/
theorem reachable_dirname {s : Folder} (h : Reachable s) :
    ∀ f ∈ s.flist, posixDirname f.path = s.folder := by
  induction h with
  | init folder => intro f hf; cases hf
  | step t c es _ _ =>
    intro f hf
    exact dirname_of_mem_paths_getFiles t es f.path (List.mem_map.2 ⟨f, hf, rfl⟩)

/-- filterMap sees no difference when a filter only removes elements the
projection sends to none. -/
theorem filterMap_filter_of_none {α β : Type} (proj : α → Option β) (q : α → Bool)
    (hq : ∀ e, q e = false → proj e = none) :
    ∀ es : List α, (es.filter q).filterMap proj = es.filterMap proj := by
  intro es
  induction es with
  | nil => rfl
  | cons e es ih =>
    cases hqe : q e with
    | true =>
      rw [List.filter_cons_of_pos hqe, List.filterMap_cons, List.filterMap_cons, ih]
    | false =>
      rw [List.filter_cons_of_neg (by simp [hqe]), List.filterMap_cons, hq e hqe, ih]

theorem filesOf_ignores_folders (es : List Entry) :
    filesOf (es.filter fun e => !(isFolderEntry e)) = filesOf es := by
  unfold filesOf
  refine filterMap_filter_of_none _ _ ?_ es
  intro e he
  cases e <;> simp_all [isFolderEntry]

theorem deletedPathsOf_ignores_folders (es : List Entry) :
    deletedPathsOf (es.filter fun e => !(isFolderEntry e)) = deletedPathsOf es := by
  unfold deletedPathsOf
  refine filterMap_filter_of_none _ _ ?_ es
  intro e he
  cases e <;> simp_all [isFolderEntry]

/-! ### Claim theorems -/

/-- C6: for every storage-client failure during move, copy or delete, the
method is supposed to raise a wrapped file error; the code instead
evaluates DropboxFileError(err) without a raise statement in all three
except branches, so no exception ever escapes: for every client behaviour
the exception component is none, in particular for a client whose calls all
fail with a transport error. -/
theorem move_copy_delete_swallow_failures :
    (∀ (client : FileClient) (st : DbxFile) (dest : String),
      (move client st dest).2 = none ∧
      (copy client st dest).2 = none ∧
      (delete client st).2 = none) ∧
    move failingFileClient exFile "/d/b.txt" = (exFile, none) ∧
    copy failingFileClient exFile "/d/b.txt" = (exFile, none) ∧
    delete failingFileClient exFile = (exFile, none) := by
  refine ⟨?_, by decide, by decide, by decide⟩
  intro client st dest
  refine ⟨?_, ?_, ?_⟩
  · unfold move
    cases client.filesMove st.path dest with
    | error e => rfl
    | ok u =>
      rcases update_metadata client st (some dest) with ⟨st2, _ | e⟩ <;> rfl
  · unfold copy
    cases client.filesCopy st.path dest with
    | error e => rfl
    | ok u => rfl
  · unfold delete
    cases client.filesDelete st.path with
    | error e => rfl
    | ok u => rfl

/-- C7: exists is supposed to return false, without raising, when the client
reports the ApiError not-found triple.  But the caught exception has already
been wrapped in DropboxFileError by update metadata, so the isinstance test
of file.py lines 138-140 can never match: on a not-found path, exists raises
a doubly wrapped DropboxFileError instead of returning false. -/
theorem exists_raises_on_not_found :
    (exists' notFoundFileClient exFile).2 =
      .error (.dropboxFileError (.dropboxFileError .apiGetMetadataNotFound)) ∧
    (exists' notFoundFileClient exFile).2 ≠ .ok false ∧
    (exists' notFoundFileClient exFile).2 ≠ .ok true := by
  refine ⟨rfl, fun h => Except.noConfusion h, fun h => Except.noConfusion h⟩

/-- C10: when the fetch of an update fails, the update raises and the folder
state is untouched: the Python method assigns the flist and cursor fields
only after the listing call and the reconciliation have both produced
values, so at the moment the exception propagates the receiver still holds
exactly its previous cursor and snapshot. -/
theorem update_failure_leaves_state_unchanged :
    ∀ (client : FolderClient) (s s' : Folder) (e : FolderError),
      updateA client s = (s', some e) → s' = s ∧ fetchA client s = .error e := by
  intro client s s' e h
  unfold updateA at h
  cases hf : fetchA client s with
  | error e2 =>
    rw [hf] at h
    obtain ⟨h1, h2⟩ : s = s' ∧ some e2 = some e := Prod.mk.injEq .. ▸ h
    obtain rfl : e2 = e := by injection h2
    exact ⟨h1.symm, rfl⟩
  | ok pr =>
    obtain ⟨c, es⟩ := pr
    rw [hf] at h
    obtain ⟨_, h2⟩ : applyBatch s c es = s' ∧ none = some e := Prod.mk.injEq .. ▸ h
    cases h2

/-- C10 witness: a concrete failing client leaves a concrete tracked state
exactly as it was. -/
theorem update_failure_leaves_state_unchanged_witness :
    exFolderOne = exFolderOne ∧
    fetchA failingFolderClient exFolderOne = .error (.wrap (.err "boom")) :=
  update_failure_leaves_state_unchanged failingFolderClient exFolderOne exFolderOne
    (.wrap (.err "boom")) (by decide)

/-- C8: in every reachable folder state the snapshot holds no two handles
with the same path (it is built as a Python set keyed by the path field),
and handle equality is computed from the path field alone. -/
theorem snapshot_nodup_and_eq_by_path :
    (∀ s : Folder, Reachable s → (paths s.flist).Nodup) ∧
    (∀ a b : DbxFile, fileEq a b = (a.path == b.path)) := by
  refine ⟨?_, fun a b => rfl⟩
  intro s h
  cases h with
  | init folder => simp [paths]
  | step t c es _ => exact nodup_paths_getFiles t es

/-- The empty-batch reconciliation returns set(flist) when every snapshot
member is a direct child of the tracked folder. -/
theorem getFiles_nil (s : Folder) (h : ∀ f ∈ s.flist, posixDirname f.path = s.folder) :
    _get_files s [] = setOf s.flist := by
  unfold _get_files filesOf deletedPathsOf
  simp only [List.filterMap_nil, List.filter_nil, List.map_nil]
  have hfl : s.flist.filter
      (fun f => !(([] : List String).contains f.path) && (posixDirname f.path == s.folder))
      = s.flist := by
    apply List.filter_eq_self.2
    intro f hf
    simp [h f hf]
  rw [hfl]
  rfl

/-- C5: for a folder in the Tracking state, reconciling an empty delta keeps
the snapshot path-set exactly as it was; only the cursor advances (the
tracked folder path is also untouched). -/
theorem empty_delta_preserves_snapshot :
    ∀ (s : Folder) (c' p : String), Reachable s → s.cursor ≠ "" →
      (applyBatch s c' []).cursor = c' ∧
      (applyBatch s c' []).folder = s.folder ∧
      (p ∈ paths (applyBatch s c' []).flist ↔ p ∈ paths s.flist) := by
  intro s c' p hR _hcur
  refine ⟨rfl, rfl, ?_⟩
  show p ∈ paths (_get_files s []) ↔ p ∈ paths s.flist
  rw [getFiles_nil s (reachable_dirname hR)]
  unfold setOf
  rw [mem_paths_foldl]
  simp [paths]

/-- C5 witness: the empty delta on a concrete reachable tracked state. -/
theorem empty_delta_preserves_snapshot_witness :
    (applyBatch exReached "c2" []).cursor = "c2" ∧
    (applyBatch exReached "c2" []).folder = exReached.folder ∧
    ("/d/a.txt" ∈ paths (applyBatch exReached "c2" []).flist ↔
      "/d/a.txt" ∈ paths exReached.flist) :=
  empty_delta_preserves_snapshot exReached "c2" "/d/a.txt"
    (Reachable.step ⟨"/d", "", []⟩ "c1" [.file ⟨"/d/a.txt", 1, "h1"⟩] (Reachable.init "/d"))
    (by decide)

/-- C4 (for the dropbox_ds engines, whose reconciliation this is): every
path in a reconciled snapshot has the tracked folder as parent directory -
an out-of-scope file record never enters, and an out-of-scope old entry is
not retained - and FolderMetadata records are ignored entirely: dropping
them from the batch does not change the result. -/
theorem scope_filter_dropbox_ds :
    ∀ (s : Folder) (es : List Entry) (p : String),
      (p ∈ paths (_get_files s es) → posixDirname p = s.folder) ∧
      _get_files s (es.filter fun e => !(isFolderEntry e)) = _get_files s es := by
  intro s es p
  refine ⟨dirname_of_mem_paths_getFiles s es p, ?_⟩
  unfold _get_files
  rw [filesOf_ignores_folders, deletedPathsOf_ignores_folders]

/-- C4 witness: a concrete batch holding one out-of-scope file record, one
folder record and one in-scope file record. -/
theorem scope_filter_dropbox_ds_witness :
    posixDirname "/d/a.txt" = (⟨"/d", "c0", []⟩ : Folder).folder ∧
    _get_files ⟨"/d", "c0", []⟩
        (([.file ⟨"/d/sub/x.txt", 1, "h"⟩, .folder "/d/sub", .file ⟨"/d/a.txt", 1, "h"⟩]
          : List Entry).filter fun e => !(isFolderEntry e)) =
      _get_files ⟨"/d", "c0", []⟩
        [.file ⟨"/d/sub/x.txt", 1, "h"⟩, .folder "/d/sub", .file ⟨"/d/a.txt", 1, "h"⟩] :=
  ⟨(scope_filter_dropbox_ds ⟨"/d", "c0", []⟩
      [.file ⟨"/d/sub/x.txt", 1, "h"⟩, .folder "/d/sub", .file ⟨"/d/a.txt", 1, "h"⟩]
      "/d/a.txt").1 (by decide),
    (scope_filter_dropbox_ds ⟨"/d", "c0", []⟩
      [.file ⟨"/d/sub/x.txt", 1, "h"⟩, .folder "/d/sub", .file ⟨"/d/a.txt", 1, "h"⟩]
      "/d/a.txt").2⟩

/-- C4 counterexample: the dropboxutils engine (folder.py lines 85-86)
applies no parent-directory filter, so a file record from a nested
subdirectory does enter its snapshot on a full listing. -/
theorem dropboxutils_admits_out_of_scope :
    uUpdate ⟨"/docs", none, none⟩ "c1" [.file ⟨"/docs/sub/x.txt", 1, "h"⟩] =
      some ⟨"/docs", some "c1", some [⟨"/docs/sub/x.txt", some 1, some "h"⟩]⟩ ∧
    posixDirname "/docs/sub/x.txt" ≠ "/docs" := by
  refine ⟨by decide, by decide⟩

/-- C8 witness: a concrete state reached by one refresh has duplicate-free
paths, and equality on two concrete handles is path equality. -/
theorem snapshot_nodup_and_eq_by_path_witness :
    (paths exReached.flist).Nodup ∧
    fileEq exFile ⟨"/d/b.txt", none, none⟩ = (exFile.path == "/d/b.txt") :=
  ⟨snapshot_nodup_and_eq_by_path.1 exReached
      (Reachable.step ⟨"/d", "", []⟩ "c1" [.file ⟨"/d/a.txt", 1, "h1"⟩] (Reachable.init "/d")),
    snapshot_nodup_and_eq_by_path.2 exFile ⟨"/d/b.txt", none, none⟩⟩

/-- C2 counterexample: a delta with a fresh record for an already-present
path does NOT replace the cached handle.  set(files_left).union(file_changes)
keeps the element already in the set on a path collision, so the stale
handle (modification time 1, hash h1) survives and the handle built from
the new record (time 2, hash h2) is discarded. -/
theorem modify_does_not_replace_handle :
    _get_files exFolderOne [.file ⟨"/d/a.txt", 2, "h2"⟩] = [⟨"/d/a.txt", some 1, some "h1"⟩] ∧
    make_dropbox_file ⟨"/d/a.txt", 2, "h2"⟩ ≠ (⟨"/d/a.txt", some 1, some "h1"⟩ : DbxFile) := by
  refine ⟨by decide, by decide⟩

/-- C2 (amended): a delta holding one file record for an already-present
in-scope path leaves the snapshot EXACTLY as it was - the old handle with
its stale metadata is retained, so size and path-set are unchanged - and
only the cursor advances. -/
theorem modify_keeps_old_handle :
    ∀ (s : Folder) (m : FileMeta) (c' : String) (f : DbxFile),
      (paths s.flist).Nodup →
      (∀ g ∈ s.flist, posixDirname g.path = s.folder) →
      f ∈ s.flist → m.pathLower = f.path →
      (applyBatch s c' [.file m]).flist = s.flist ∧
      (applyBatch s c' [.file m]).cursor = c' := by
  intro s m c' f hnd hdir hmem hpath
  refine ⟨?_, rfl⟩
  show _get_files s [.file m] = s.flist
  unfold _get_files filesOf deletedPathsOf
  simp only [List.filterMap_cons, List.filterMap_nil]
  have hscope : (s.folder == posixDirname m.pathLower) = true := by
    rw [hpath, hdir f hmem]
    exact beq_self_eq_true s.folder
  simp only [List.filter_cons, List.filter_nil, hscope, if_true, List.map_cons, List.map_nil]
  have hfl : s.flist.filter
      (fun g => !(([] : List String).contains g.path) && (posixDirname g.path == s.folder))
      = s.flist := by
    apply List.filter_eq_self.2
    intro g hg
    simp [hdir g hg]
  rw [hfl]
  show setUnion s.flist [make_dropbox_file m] = s.flist
  unfold setUnion
  rw [List.foldl_cons, List.foldl_nil, setOf_eq_self hnd]
  apply setInsert_of_mem
  show (make_dropbox_file m).path ∈ paths s.flist
  have : (make_dropbox_file m).path = f.path := hpath
  rw [this]
  exact List.mem_map.2 ⟨f, hmem, rfl⟩

/-- Membership in the extracted FileMetadata records. -/
theorem mem_filesOf {m : FileMeta} {es : List Entry} :
    m ∈ filesOf es ↔ Entry.file m ∈ es := by
  unfold filesOf
  rw [List.mem_filterMap]
  constructor
  · rintro ⟨e, he, hproj⟩
    cases e with
    | file m2 =>
      obtain rfl : m2 = m := by injection hproj
      exact he
    | deleted q => cases hproj
    | folder q => cases hproj
  · intro h
    exact ⟨Entry.file m, h, rfl⟩

/-- List.contains agrees with membership for strings. -/
theorem contains_iff_mem (l : List String) (a : String) : l.contains a = true ↔ a ∈ l := by
  simp [List.contains]

/-- C1 counterexample: a batch reporting the same path both deleted and as a
fresh file record leaves the path in the snapshot: the deleted-path filter
is applied only to the old snapshot, not to the file records of the same
batch, so the path is reported as deleted yet present after the refresh. -/
theorem deleted_path_readded_survives :
    "/d/x.txt" ∈ deletedPathsOf [.deleted "/d/x.txt", .file ⟨"/d/x.txt", 2, "h2"⟩] ∧
    _get_files ⟨"/d", "c0", []⟩ [.deleted "/d/x.txt", .file ⟨"/d/x.txt", 2, "h2"⟩] =
      [⟨"/d/x.txt", some 2, some "h2"⟩] ∧
    "/d/x.txt" ∈ paths (_get_files ⟨"/d", "c0", []⟩
      [.deleted "/d/x.txt", .file ⟨"/d/x.txt", 2, "h2"⟩]) := by
  refine ⟨by decide, by decide, by decide⟩

/-- C1 (amended): a Tracking state with a snapshot of three direct children
A, B, C, on a delta holding exactly one deleted record for the path of B,
refreshes to the path-set of A and C with the cursor set to the batch
cursor; and in general every path reported as deleted, and not also
delivered as a file record of the same batch, is absent after the
refresh. -/
theorem delta_deletion_removes_path :
    (∀ (fld cur c' p : String) (a b c : DbxFile) (client : FolderClient) (hm : Bool),
      posixDirname a.path = fld → posixDirname b.path = fld → posixDirname c.path = fld →
      a.path ≠ b.path → b.path ≠ c.path → a.path ≠ c.path → cur ≠ "" →
      client.listFolderContinue cur = .ok ⟨[.deleted b.path], c', hm⟩ →
      ((updateA client ⟨fld, cur, [a, b, c]⟩).2 = none ∧
       (updateA client ⟨fld, cur, [a, b, c]⟩).1.cursor = c' ∧
       (p ∈ paths (updateA client ⟨fld, cur, [a, b, c]⟩).1.flist ↔
         (p = a.path ∨ p = c.path)))) ∧
    (∀ (s : Folder) (c' : String) (es : List Entry) (p : String),
      p ∈ deletedPathsOf es →
      (∀ m : FileMeta, Entry.file m ∈ es → m.pathLower ≠ p) →
      p ∉ paths (applyBatch s c' es).flist) := by
  constructor
  · intro fld cur c' p a b c client hm hda hdb hdc hab hbc hac hcur hcli
    have hcur' : (cur == "") = false := beq_eq_false_iff_ne.2 hcur
    have hup : updateA client ⟨fld, cur, [a, b, c]⟩ =
        (applyBatch ⟨fld, cur, [a, b, c]⟩ c' [.deleted b.path], none) := by
      unfold updateA fetchA
      simp [hcur', hcli]
    rw [hup]
    refine ⟨rfl, rfl, ?_⟩
    have hred : (applyBatch ⟨fld, cur, [a, b, c]⟩ c' [.deleted b.path]).flist =
        setOf ([a, b, c].filter
          (fun f => !(List.contains [b.path] f.path) && (posixDirname f.path == fld))) := rfl
    rw [hred]
    unfold setOf
    rw [mem_paths_foldl]
    simp only [paths, List.map_nil, List.not_mem_nil, false_or]
    simp only [List.mem_map, List.mem_filter, List.mem_cons, List.not_mem_nil, or_false]
    constructor
    · rintro ⟨f, ⟨hfmem, hcond⟩, hp⟩
      rw [Bool.and_eq_true, Bool.not_eq_true'] at hcond
      rcases hcond with ⟨hnc, _⟩
      rcases hfmem with h | h | h
      · exact Or.inl (by rw [← hp, h])
      · exfalso
        rw [h] at hnc
        simp [List.contains] at hnc
      · exact Or.inr (by rw [← hp, h])
    · rintro (hp | hp)
      · refine ⟨a, ⟨Or.inl rfl, ?_⟩, hp.symm⟩
        rw [Bool.and_eq_true, Bool.not_eq_true']
        refine ⟨?_, beq_iff_eq.2 hda⟩
        simp [List.contains, hab]
      · refine ⟨c, ⟨Or.inr (Or.inr rfl), ?_⟩, hp.symm⟩
        rw [Bool.and_eq_true, Bool.not_eq_true']
        refine ⟨?_, beq_iff_eq.2 hdc⟩
        simp [List.contains]
        intro h
        exact hbc h.symm
  · intro s c' es p hdel hnof
    show p ∉ paths (_get_files s es)
    intro hmem
    unfold _get_files at hmem
    rcases (mem_paths_setUnion _ _ p).1 hmem with h1 | h1
    · simp only [paths, List.mem_map] at h1
      rcases h1 with ⟨f, hf, hp⟩
      rcases List.mem_filter.1 hf with ⟨_, hcond⟩
      rw [Bool.and_eq_true, Bool.not_eq_true'] at hcond
      rcases hcond with ⟨hnc, _⟩
      rw [hp] at hnc
      rw [(contains_iff_mem (deletedPathsOf es) p).2 hdel] at hnc
      cases hnc
    · simp only [paths, List.mem_map] at h1
      rcases h1 with ⟨f, ⟨m, hmm, hfm⟩, hp⟩
      rcases List.mem_filter.1 hmm with ⟨hmf, _⟩
      refine hnof m (mem_filesOf.1 hmf) ?_
      rw [← hp, ← hfm]
      rfl

/-- C1 witness: the three-file deletion scenario at concrete values, and the
general deleted-path clause on a concrete mixed batch. -/
theorem delta_deletion_removes_path_witness :
    ((updateA deleteBClient exThree).2 = none ∧
     (updateA deleteBClient exThree).1.cursor = "cz" ∧
     ("/d/b.txt" ∈ paths (updateA deleteBClient exThree).1.flist ↔
       ("/d/b.txt" = "/d/a.txt" ∨ "/d/b.txt" = "/d/c.txt"))) ∧
    ("/d/q.txt" ∉ paths (applyBatch exFolderOne "cy"
      [.deleted "/d/q.txt", .file ⟨"/d/r.txt", 3, "h3"⟩]).flist) :=
  ⟨delta_deletion_removes_path.1 "/d" "ct" "cz" "/d/b.txt"
      ⟨"/d/a.txt", some 1, some "ha"⟩ ⟨"/d/b.txt", some 1, some "hb"⟩
      ⟨"/d/c.txt", some 1, some "hc"⟩ deleteBClient false
      (by decide) (by decide) (by decide) (by decide) (by decide) (by decide)
      (by decide) rfl,
    delta_deletion_removes_path.2 exFolderOne "cy"
      [.deleted "/d/q.txt", .file ⟨"/d/r.txt", 3, "h3"⟩] "/d/q.txt" (by decide)
      (by
        intro m hmem hq
        rcases List.mem_cons.1 hmem with h | h
        · cases h
        · rcases List.mem_cons.1 h with h2 | h2
          · obtain rfl : m = ⟨"/d/r.txt", 3, "h3"⟩ := by injection h2
            exact absurd hq (by decide)
          · cases h2)⟩

/-- C3 counterexample (the folder.py engine): _get_changes_from_path makes a
single listing call and ignores the has more flag, so a listing spread over
pages loses everything after the first page: against a three-page client it
returns only the first page file and the first page cursor, while the same
entries in one page give both files - the two snapshots differ. -/
theorem folderpy_ignores_has_more :
    updateA (threePageClient "/d" [.file ⟨"/d/a.txt", 1, "ha"⟩]
        [.file ⟨"/d/b.txt", 1, "hb"⟩] [] "c1" "c2" "c3") ⟨"/d", "", []⟩ =
      (⟨"/d", "c1", [⟨"/d/a.txt", some 1, some "ha"⟩]⟩, none) ∧
    updateA (onePageClient "/d"
        [.file ⟨"/d/a.txt", 1, "ha"⟩, .file ⟨"/d/b.txt", 1, "hb"⟩] "c3") ⟨"/d", "", []⟩ =
      (⟨"/d", "c3",
        [⟨"/d/a.txt", some 1, some "ha"⟩, ⟨"/d/b.txt", some 1, some "hb"⟩]⟩, none) ∧
    (updateA (threePageClient "/d" [.file ⟨"/d/a.txt", 1, "ha"⟩]
        [.file ⟨"/d/b.txt", 1, "hb"⟩] [] "c1" "c2" "c3") ⟨"/d", "", []⟩).1.flist ≠
      (updateA (onePageClient "/d"
        [.file ⟨"/d/a.txt", 1, "ha"⟩, .file ⟨"/d/b.txt", 1, "hb"⟩] "c3")
        ⟨"/d", "", []⟩).1.flist := by
  refine ⟨by decide, by decide, by decide⟩

/-- C3 (amended to the dropboxfolder.py engine): its fetchers keep calling
continue with the latest page cursor while has more is set, appending every
page of entries, and reconcile once over the concatenation: a listing over
three pages produces exactly the state reconciled from the single
concatenated batch with the final page cursor, the same state the one-page
client produces. -/
theorem pagination_concatenates_before_reconcile :
    ∀ (path c1 c2 c3 : String) (e1 e2 e3 : List Entry) (flist0 : List DbxFile),
      c1 ≠ c2 →
      updateB (threePageClient path e1 e2 e3 c1 c2 c3) 2 ⟨path, "", flist0⟩ =
        some (applyBatch ⟨path, "", flist0⟩ c3 (e1 ++ e2 ++ e3), none) ∧
      updateB (onePageClient path (e1 ++ e2 ++ e3) c3) 2 ⟨path, "", flist0⟩ =
        some (applyBatch ⟨path, "", flist0⟩ c3 (e1 ++ e2 ++ e3), none) := by
  intro path c1 c2 c3 e1 e2 e3 flist0 h12
  have h21 : (c2 == c1) = false := beq_eq_false_iff_ne.2 (Ne.symm h12)
  constructor
  · unfold updateB getChangesFromPathB threePageClient
    simp [pageLoop, h21, List.append_assoc]
  · unfold updateB getChangesFromPathB onePageClient
    simp [pageLoop]

/-- C3 witness: three concrete pages against the concatenated single page. -/
theorem pagination_concatenates_before_reconcile_witness :
    updateB (threePageClient "/d" [.file ⟨"/d/a.txt", 1, "ha"⟩]
        [.file ⟨"/d/b.txt", 1, "hb"⟩] [.deleted "/d/a.txt"] "p1" "p2" "p3") 2
        ⟨"/d", "", []⟩ =
      some (applyBatch ⟨"/d", "", []⟩ "p3"
        ([.file ⟨"/d/a.txt", 1, "ha"⟩] ++ [.file ⟨"/d/b.txt", 1, "hb"⟩] ++
          [.deleted "/d/a.txt"]), none) ∧
    updateB (onePageClient "/d"
        ([.file ⟨"/d/a.txt", 1, "ha"⟩] ++ [.file ⟨"/d/b.txt", 1, "hb"⟩] ++
          [.deleted "/d/a.txt"]) "p3") 2 ⟨"/d", "", []⟩ =
      some (applyBatch ⟨"/d", "", []⟩ "p3"
        ([.file ⟨"/d/a.txt", 1, "ha"⟩] ++ [.file ⟨"/d/b.txt", 1, "hb"⟩] ++
          [.deleted "/d/a.txt"]), none) :=
  pagination_concatenates_before_reconcile "/d" "p1" "p2" "p3"
    [.file ⟨"/d/a.txt", 1, "ha"⟩] [.file ⟨"/d/b.txt", 1, "hb"⟩] [.deleted "/d/a.txt"]
    [] (by decide)

/-- C9: with the timestamp flag, upload rewrites the handle path in place,
before the client upload call, to dirname/<strftime(TIME_FORMAT)>basename:
the upload is issued at the rewritten path, and even when that call fails
the handle already carries the rewritten path.  On success the cached path
casing, modification time and content hash are refreshed from the server
metadata response.  The TIME_FORMAT pattern renders as YYYYMMDD_HH:MM. -/
theorem upload_timestamp_rewrites_path_first :
    ∀ (client fclient : FileClient) (st : DbxFile) (data : List Nat) (now : DateTimeUTC)
      (m : FileMeta) (e : PyExc),
      client.filesUpload data
        (posixJoin (posixDirname st.path) (strftimeTF now ++ posixBasename st.path)) =
        .ok () →
      client.getMetadata
        (posixJoin (posixDirname st.path) (strftimeTF now ++ posixBasename st.path)) =
        .ok m →
      fclient.filesUpload data
        (posixJoin (posixDirname st.path) (strftimeTF now ++ posixBasename st.path)) =
        .error e →
      upload client st data true now =
        (⟨m.pathLower, some m.clientModified, some m.contentHash⟩, none) ∧
      upload fclient st data true now =
        ({ st with path :=
            posixJoin (posixDirname st.path) (strftimeTF now ++ posixBasename st.path) },
          some (.dropboxFileError e)) ∧
      strftimeTF ⟨2020, 3, 7, 15, 4⟩ = "20200307_15:04" ∧
      TIME_FORMAT = "%Y%m%d_%H:%M" := by
  intro client fclient st data now m e hUp hMeta hFail
  refine ⟨?_, ?_, by decide, rfl⟩
  · unfold upload update_metadata
    simp only [if_true]
    rw [hUp, hMeta]
  · unfold upload
    simp only [if_true]
    rw [hFail]

/-- C9 witness: a concrete timestamped upload against a client that accepts
the upload and serves fixed metadata, and against a failing client. -/
theorem upload_timestamp_rewrites_path_first_witness :
    upload uploadOkClient exFile [1, 2] true ⟨2020, 3, 7, 15, 4⟩ =
      (⟨"/d/20200307_15:04a.txt", some 9, some "hw"⟩, none) ∧
    upload failingFileClient exFile [1, 2] true ⟨2020, 3, 7, 15, 4⟩ =
      ({ exFile with
          path := posixJoin (posixDirname exFile.path)
            (strftimeTF ⟨2020, 3, 7, 15, 4⟩ ++ posixBasename exFile.path) },
        some (.dropboxFileError (.transportError 7))) ∧
    strftimeTF ⟨2020, 3, 7, 15, 4⟩ = "20200307_15:04" ∧
    TIME_FORMAT = "%Y%m%d_%H:%M" :=
  upload_timestamp_rewrites_path_first uploadOkClient failingFileClient exFile [1, 2]
    ⟨2020, 3, 7, 15, 4⟩ ⟨"/d/20200307_15:04a.txt", 9, "hw"⟩ (.transportError 7)
    rfl rfl rfl

/-- C2 witness: the amended claim applied to the concrete one-file state. -/
theorem modify_keeps_old_handle_witness :
    (applyBatch exFolderOne "c9" [.file ⟨"/d/a.txt", 2, "h2"⟩]).flist = exFolderOne.flist ∧
    (applyBatch exFolderOne "c9" [.file ⟨"/d/a.txt", 2, "h2"⟩]).cursor = "c9" :=
  modify_keeps_old_handle exFolderOne ⟨"/d/a.txt", 2, "h2"⟩ "c9"
    ⟨"/d/a.txt", some 1, some "h1"⟩ (by decide) (by decide) (by decide) (by decide)

end DropboxDS
